import Mathlib

/-!
Verification of the sprite-packing pipeline of `sprite_png_plugin`.

The repository has two deployment variants of the same core:
- `src/index.js` ("in-pipeline mode"): a webpack plugin that, in the
  `processAssets` hook, filters the compilation's assets, packs the
  qualifying PNGs into one sprite sheet, replaces the first qualifying
  asset with the sheet, deletes the remaining qualifying assets, and
  writes a coordinate manifest only when it structurally changed.
- `src/plugin.js` ("standalone mode"): scans/watches the filesystem and
  writes a `sprite.png` plus a `manifest.json` (keys of the form
  `parentDir_basename`) to a fixed output directory.

This file shallowly embeds the code of the two files: JS strings stay
`String`, JS `RegExp` values are modelled by their `test` function
(`String → Bool`), JS objects used as maps become association lists whose
keys are unique (as JS object keys are), thrown errors become
`Except String`, and the process-wide mutable `_coordinateMeta` field is
threaded explicitly as state.
-/

namespace SpritePNG

/-- Raw image bytes (contents of a PNG buffer); modelled as a list of bytes. -/
abbrev Bytes := List Nat

/-- Placement rectangle as produced by spritesmith: `coordinates[p]` has
fields `x`, `y`, `width`, `height`. -/
structure Rect where
  x : Nat
  y : Nat
  width : Nat
  height : Nat
deriving DecidableEq, Repr

/-- Compact rectangle shape used by `plugin.js` manifests: fields `x y w h`. -/
structure CompactRect where
  x : Nat
  y : Nat
  w : Nat
  h : Nat
deriving DecidableEq, Repr

/-- One element of a JS array given as a filter rule: a `RegExp` (modelled
by its `test` function), a string, or some other value carrying only its
`typeof` name. -/
inductive RuleItem where
  | regexp (test : String → Bool)
  | str (s : String)
  | other (typeName : String)

/-- JS `typeof` of a rule-array element (`typeof` of a RegExp is "object"). -/
def typeofItem : RuleItem → String
  | .regexp _ => "object"
  | .str _ => "string"
  | .other t => t

/-- Whether a rule-array element is a `RegExp` (`it instanceof RegExp`). -/
def isRegExpItem : RuleItem → Bool
  | .regexp _ => true
  | _ => false

/-- Result of `it.test(path)` for an array element; non-RegExp elements
never match (they are rejected before being tested in `plugin.js`, and are
only compared for string equality in `index.js`). -/
def itemTest : RuleItem → String → Bool
  | .regexp r, s => r s
  | _, _ => false

/-- Value of the `includes` / `excludes` option: absent (falsy), a single
`RegExp`, an array, or some other value carrying its `typeof` name. -/
inductive Rules where
  | absent
  | regexp (test : String → Bool)
  | arr (items : List RuleItem)
  | other (typeName : String)

/-- Model of `filePath?.endsWith(".png")` (`isPng` in both source files):
the character sequence `.png` is a suffix of the path. -/
def isPng (filePath : String) : Bool := List.isSuffixOf ".png".data filePath.data

/-- Model of `#convert2Posix` in `plugin.js`:
`v ? v.split(path.sep).join(path.posix.sep) : ''`.  Splitting on the
single-character platform separator and joining with `/` replaces every
occurrence of the separator character by `/`. -/
def convert2Posix (sep : Char) (v : String) : String :=
  if v = "" then "" else String.mk (v.data.map (fun c => if c == sep then '/' else c))

/-- Model of Node's `path.basename` for paths without a trailing
separator: the part after the last separator. -/
def basename (sep : Char) (p : String) : String :=
  String.mk ((p.data.reverse.takeWhile (fun c => !(c == sep))).reverse)

/-- Model of `path.dirname(p).split(path.sep).pop()` in `plugin.js`
(for paths without a trailing separator): the immediate parent directory
name, `"."` when the path has no separator (Node's `dirname` returns `"."`
and splitting it yields `["."]`), and `""` for paths directly under the
root. -/
def parentDirName (sep : Char) (p : String) : String :=
  match p.data.reverse.dropWhile (fun c => !(c == sep)) with
  | [] => "."
  | _ :: r => String.mk ((r.takeWhile (fun c => !(c == sep))).reverse)

/-- Model of `path.join(a, b)` for a directory joined with a relative
path: concatenation with one separator. -/
def joinPath (sep : Char) (a b : String) : String :=
  a ++ String.singleton sep ++ b

/-- Model of `#pathEqual` in `plugin.js`: `path.relative(p, q) == ""`,
which holds exactly when both arguments resolve to the same path; the
paths compared by the plugin are already resolved, so this is equality. -/
def pathEqual (p q : String) : Bool := p == q

/-- Model of `Array.prototype.includes(filePath)` over a rule array
(`index.js` line 53): SameValueZero membership, so only string elements
can ever equal the path. -/
def arrContainsStr (items : List RuleItem) (s : String) : Bool :=
  items.any (fun it =>
    match it with
    | .str t => t == s
    | _ => false)

/-- Model of `inWhiteList` in `index.js`: absent rules accept everything;
a non-RegExp non-Array value throws; a RegExp excludes the paths it
matches (no separator normalization); an array excludes exactly its
string members. -/
def inWhiteList (includes : Rules) (filePath : String) : Except String Bool :=
  match includes with
  | .absent => .ok true
  | .regexp test => .ok (!(test filePath))
  | .arr items => .ok (!(arrContainsStr items filePath))
  | .other t =>
      .error ("\"includes\" can be \"RegExp\" or \"Array\" only but receive \"" ++ t ++ "\"")

/-- Model of the `for` loop in `#notExcludes` of `plugin.js`: walk the
array from index `idx`; a non-RegExp element throws naming its index and
`typeof`; a matching RegExp returns `false`; falling off the end returns
`true`. -/
def notExcludesLoop (posixPath : String) : Nat → List RuleItem → Except String Bool
  | _, [] => .ok true
  | idx, it :: rest =>
      match it with
      | .regexp r =>
          if r posixPath then .ok false else notExcludesLoop posixPath (idx + 1) rest
      | .str s =>
          .error ("Item at " ++ toString idx ++ " must be \"RegExp\" but received \"" ++
            typeofItem (.str s) ++ "\"")
      | .other t =>
          .error ("Item at " ++ toString idx ++ " must be \"RegExp\" but received \"" ++
            typeofItem (.other t) ++ "\"")

/-- Model of `#notExcludes` in `plugin.js`: absent rules accept
everything; a non-RegExp non-Array value throws; otherwise the path is
converted to posix separators and tested against the RegExp (single-rule
form) or against the array elements in order. -/
def notExcludes (sep : Char) (excludes : Rules) (filePath : String) : Except String Bool :=
  match excludes with
  | .absent => .ok true
  | .regexp test => .ok (!(test (convert2Posix sep filePath)))
  | .arr items => notExcludesLoop (convert2Posix sep filePath) 0 items
  | .other t =>
      .error ("\"excludes\" can be \"RegExp\" or \"RegExp Array\" only but received \"" ++ t ++ "\"")

/-- Coordinate metadata built by `index.js`: overall sheet dimensions
plus a frames object keyed by basename.  The frames object is an
association list with pairwise-distinct keys (JS object keys are unique). -/
structure CoordinateMeta where
  width : Nat
  height : Nat
  frames : List (String × Rect)
deriving Repr

/-- JS object property assignment `m[k] = v`: an existing key keeps its
position and gets the new value, a new key is appended. -/
def objInsert {α : Type} (m : List (String × α)) (k : String) (v : α) : List (String × α) :=
  if m.any (fun kv => kv.1 == k) then
    m.map (fun kv => if kv.1 == k then (k, v) else kv)
  else
    m ++ [(k, v)]

/-- Deep structural equality of two frames objects, as lodash `isEqual`
computes it for plain objects (same number of own keys, and every key of
the first maps to a deeply equal value in the second). -/
def objEqual (a b : List (String × Rect)) : Bool :=
  a.length == b.length && a.all (fun kv => b.lookup kv.1 == some kv.2)

/-- Deep structural equality of two coordinate-metadata values (lodash
`isEqual` on the plain object built in `processAssets`). -/
def metaEqual (a b : CoordinateMeta) : Bool :=
  a.width == b.width && a.height == b.height && objEqual a.frames b.frames

/-- Lodash `isEqual(this._coordinateMeta, newSource)` where the stored
field starts out `null`: `isEqual(null, obj)` is `false`. -/
def isEqualOpt : Option CoordinateMeta → CoordinateMeta → Bool
  | none, _ => false
  | some a, b => metaEqual a b

/-- Model of `isPrevMetadata` in `index.js`: compare the stored metadata
with the candidate; on a difference replace the stored value by a deep
copy of the candidate (a deep copy of an immutable value is the value);
return whether they were equal, together with the new stored state. -/
def isPrevMetadata (st : Option CoordinateMeta) (newSource : CoordinateMeta) :
    Bool × Option CoordinateMeta :=
  let equal := isEqualOpt st newSource
  if equal then (equal, st) else (equal, some newSource)

/-- Result delivered by `Spritesmith.run` on success: placement
rectangles keyed by the identifiers the packer was given, overall sheet
dimensions (`properties`), and the sheet image bytes. -/
structure PackResult where
  coordinates : List (String × Rect)
  width : Nat
  height : Nat
  image : Bytes

/-- Mutable fields of the `index.js` plugin instance that the
`processAssets` handler reads or writes. -/
structure PluginState where
  includes : Rules
  outputDir : String
  coordinateMeta : Option CoordinateMeta

/-- Model of `Object.keys(assets).filter(fp => this.inWhiteList(fp) && this.isPng(fp))`:
the filter callback rethrows any error from `inWhiteList`. -/
def filterQualifying (includes : Rules) (paths : List String) : Except String (List String) :=
  match paths with
  | [] => .ok []
  | p :: rest =>
      match inWhiteList includes p with
      | .error e => .error e
      | .ok ok =>
          match filterQualifying includes rest with
          | .error e => .error e
          | .ok tail => .ok (if ok && isPng p then p :: tail else tail)

/-- Model of the `imagesData` construction in `processAssets`: each
qualifying path becomes a Vinyl file at `path.join(outputDir, assetPath)`
holding the asset's source bytes. -/
def imagesDataOf (sep : Char) (s : PluginState) (assets : List (String × Bytes))
    (imagesPath : List String) : List (String × Bytes) :=
  imagesPath.map (fun p => (joinPath sep s.outputDir p, (assets.lookup p).getD []))

/-- Model of `compilation.updateAsset(k, v)`: replace the artifact stored
at key `k` with `v`. -/
def updateAsset (assets : List (String × Bytes)) (k : String) (v : Bytes) :
    List (String × Bytes) :=
  assets.map (fun kv => if kv.1 == k then (k, v) else kv)

/-- Model of `compilation.deleteAsset(k)`: remove the artifact slot at key `k`. -/
def deleteAsset (assets : List (String × Bytes)) (k : String) : List (String × Bytes) :=
  assets.filter (fun kv => !(kv.1 == k))

/-- Model of the `coordinateMeta` construction in `processAssets`
(`index.js` lines 98 to 104): packer-reported `width` and `height`, and a
frames object mapping `path.basename(relativePath)` to the placement
rectangle verbatim. -/
def buildCoordinateMeta (sep : Char) (pr : PackResult) : CoordinateMeta :=
  { width := pr.width
    height := pr.height
    frames := pr.coordinates.foldl (fun m kv => objInsert m (basename sep kv.1) kv.2) [] }

/-- Observable outcome of one `processAssets` invocation: the updated
plugin state, the updated asset set, whether the packer ran, what (if
anything) was written to the coordinate file, and whether the webpack
callback was invoked. -/
structure ProcessResult where
  state : PluginState
  assets : List (String × Bytes)
  packerInvoked : Bool
  written : Option CoordinateMeta
  signaled : Bool

/-- Model of the `processAssets` handler in `index.js`, parameterized by
the external packer: filter the asset keys, and either signal completion
immediately (empty list) or pack, overwrite the first qualifying slot,
delete the remaining qualifying slots, build the metadata, write it only
when the differ reports a change, and signal completion. -/
def processAssets (sep : Char) (pack : List (String × Bytes) → PackResult)
    (s : PluginState) (assets : List (String × Bytes)) : Except String ProcessResult :=
  match filterQualifying s.includes (assets.map Prod.fst) with
  | .error e => .error e
  | .ok imagesPath =>
      match imagesPath with
      | [] => .ok ⟨s, assets, false, none, true⟩
      | first :: rest =>
          let pr := pack (imagesDataOf sep s assets (first :: rest))
          let assets1 := updateAsset assets first pr.image
          let assets2 := rest.foldl deleteAsset assets1
          let meta := buildCoordinateMeta sep pr
          let eqSt := isPrevMetadata s.coordinateMeta meta
          .ok ⟨{ s with coordinateMeta := eqSt.2 }, assets2, true,
               if eqSt.1 then none else some meta, true⟩

/-- Model of the metadata construction in `#generateSpriteSheet` of
`plugin.js`: a plain object mapping
`dirname(filePath).split(sep).pop() + "_" + basename(filePath)` to the
compact rectangle `x y w h` — and nothing else (no overall dimensions). -/
def generateMetadata (sep : Char) (coordinates : List (String × Rect)) :
    List (String × CompactRect) :=
  coordinates.foldl
    (fun m kv =>
      objInsert m (parentDirName sep kv.1 ++ "_" ++ basename sep kv.1)
        ⟨kv.2.x, kv.2.y, kv.2.width, kv.2.height⟩)
    []

/-- JSON serialization of a compact rectangle, as `JSON.stringify`
renders one frame of the `plugin.js` manifest. -/
def compactRectJson (r : CompactRect) : String :=
  "\x7b\"x\":" ++ toString r.x ++ ",\"y\":" ++ toString r.y ++
    ",\"w\":" ++ toString r.w ++ ",\"h\":" ++ toString r.h ++ "\x7d"

/-- JSON serialization of an object whose field values are already
serialized, in insertion order, as `JSON.stringify` renders it. -/
def objJson (fields : List (String × String)) : String :=
  "\x7b" ++ String.intercalate "," (fields.map (fun kv => "\"" ++ kv.1 ++ "\":" ++ kv.2)) ++ "\x7d"

/-- The exact string `JSON.stringify(metadata)` written to
`manifest.json` by `#generateSpriteSheet` for a given packer result. -/
def manifestJson (sep : Char) (coordinates : List (String × Rect)) : String :=
  objJson ((generateMetadata sep coordinates).map (fun kv => (kv.1, compactRectJson kv.2)))

/-- Model of `.filter(p => this.#notExcludes(p) && this.#isPng(p))` over
scanned file paths in `plugin.js`; `#notExcludes` errors propagate. -/
def filterImages (sep : Char) (excludes : Rules) (paths : List String) :
    Except String (List String) :=
  match paths with
  | [] => .ok []
  | p :: rest =>
      match notExcludes sep excludes p with
      | .error e => .error e
      | .ok ok =>
          match filterImages sep excludes rest with
          | .error e => .error e
          | .ok tail => .ok (if ok && isPng p then p :: tail else tail)

/-- Observable outcome of the production `beforeRun` hook of `plugin.js`:
whether the packer ran, the manifest content whose write was started, the
sprite bytes whose write was started, and whether the webpack callback
was invoked. -/
structure StandaloneOutcome where
  packerInvoked : Bool
  manifestWrite : Option String
  spriteWrite : Option Bytes
  signaled : Bool
deriving Repr

/-- Model of the production branch of `apply` in `plugin.js` (lines 139
to 145): scan, join each result with the working directory, filter, and
only when the resulting list is non-empty run `#generateSpriteSheet`
with the webpack callback (which is invoked after the two writes settle).
When the list is empty nothing happens — in particular the callback is
never invoked. -/
def beforeRunPack (sep : Char) (excludes : Rules) (pack : List String → PackResult)
    (scanned : List String) (cwd : String) : Except String StandaloneOutcome :=
  match filterImages sep excludes (scanned.map (joinPath sep cwd)) with
  | .error e => .error e
  | .ok [] => .ok ⟨false, none, none, false⟩
  | .ok (first :: rest) =>
      let pr := pack (first :: rest)
      .ok ⟨true, some (manifestJson sep pr.coordinates), some pr.image, true⟩

/-- Model of the condition guarding `#spriteProcess` in the gaze `"all"`
handler of `plugin.js` (lines 150 to 160): repack only when the event is
not `"renamed"`, the path is not excluded, the path is neither the sprite
image output path nor the manifest output path, and the path is a PNG.
Errors thrown by `#notExcludes` propagate (and no repack happens). -/
def shouldRepack (sep : Char) (excludes : Rules) (spriteImagePath manifestPath : String)
    (event : String) (filePath : String) : Except String Bool :=
  if event == "renamed" then .ok false
  else
    match notExcludes sep excludes filePath with
    | .error e => .error e
    | .ok ne =>
        .ok (ne && !pathEqual filePath spriteImagePath &&
          !pathEqual filePath manifestPath && isPng filePath)

/-- Settlement of one promisified `writeFile`: the instant it settles and
whether it fulfilled (`ok = true`) or rejected. -/
structure WriteOutcome where
  time : Nat
  ok : Bool
deriving DecidableEq, Repr

/-- Settle time of `Promise.all([w1, w2])` per the ECMAScript semantics
used at `plugin.js` lines 106 to 109: if both writes fulfill, `all`
fulfills once the later one does; if any write rejects, `all` rejects as
soon as the first rejection settles.  `.finally(callback)` invokes the
callback at this settle time. -/
def promiseAll2SettleTime (w1 w2 : WriteOutcome) : Nat :=
  if w1.ok then
    if w2.ok then max w1.time w2.time else w2.time
  else
    if w2.ok then w1.time else min w1.time w2.time

/-- Observable behavior of the write section of `#generateSpriteSheet`
(`plugin.js` lines 105 to 113): the manifest content and sprite bytes
whose writes are started, and the instant the callback fires — `none`
when no callback was passed. -/
structure SpriteSheetWrites where
  manifestContent : String
  spriteContent : Bytes
  signalTime : Option Nat
deriving Repr

/-- Model of the write section of `#generateSpriteSheet`: both writes
are always started; when a callback was passed it fires once
`Promise.all` over the two writes settles, and when no callback was
passed (`else` branch, the watch-mode path) the two `writeFile` calls
are simply fired and nothing awaits or observes their settlement. -/
def generateSpriteSheetWrites (sep : Char) (pr : PackResult) (callbackRequested : Bool)
    (wManifest wSprite : WriteOutcome) : SpriteSheetWrites :=
  { manifestContent := manifestJson sep pr.coordinates
    spriteContent := pr.image
    signalTime :=
      if callbackRequested then some (promiseAll2SettleTime wManifest wSprite) else none }

/-! Helper lemmas about the association-list model of JS objects. -/

/-- Keys are preserved by a JS property assignment that hits an existing key,
and extended by one when the key is new. -/
theorem objInsert_keys {α : Type} (m : List (String × α)) (k : String) (v : α) :
    (objInsert m k v).map Prod.fst =
      if m.any (fun kv => kv.1 == k) then m.map Prod.fst else m.map Prod.fst ++ [k] := by
  unfold objInsert
  split
  · rw [List.map_map]
    apply List.map_congr_left
    intro kv _
    by_cases h : (kv.1 == k) = true
    · simp only [Function.comp_apply, h, if_pos]
      exact (eq_of_beq h).symm
    · simp only [Function.comp_apply, h]
      simp
  · simp

/-- JS property assignment preserves uniqueness of object keys. -/
theorem objInsert_nodupKeys {α : Type} (m : List (String × α)) (k : String) (v : α)
    (h : (m.map Prod.fst).Nodup) : ((objInsert m k v).map Prod.fst).Nodup := by
  rw [objInsert_keys]
  split
  · exact h
  · next hany =>
    have hany' : (m.any fun kv => kv.1 == k) = false := by
      revert hany; cases m.any fun kv => kv.1 == k <;> simp
    rw [List.nodup_append]
    refine ⟨h, List.nodup_singleton k, ?_⟩
    intro x hx hk
    rcases List.mem_singleton.mp hk with rfl
    rcases List.mem_map.mp hx with ⟨kv, hkv, rfl⟩
    have hne := List.any_eq_false.mp hany' kv hkv
    simp at hne

/-- Folding JS property assignments over any list keeps object keys unique. -/
theorem foldl_objInsert_nodupKeys {α β : Type} (key : β → String) (val : β → α) :
    ∀ (l : List β) (m : List (String × α)), (m.map Prod.fst).Nodup →
      ((l.foldl (fun m kv => objInsert m (key kv) (val kv)) m).map Prod.fst).Nodup := by
  intro l
  induction l with
  | nil => intro m h; exact h
  | cons b rest ih =>
      intro m h
      exact ih (objInsert m (key b) (val b)) (objInsert_nodupKeys m (key b) (val b) h)

/-- In an object with unique keys, looking up the key of a present entry
returns that entry's value. -/
theorem lookup_self_of_nodupKeys {α : Type} :
    ∀ (m : List (String × α)), (m.map Prod.fst).Nodup →
      ∀ kv ∈ m, m.lookup kv.1 = some kv.2 := by
  intro m
  induction m with
  | nil => intro _ kv hkv; cases hkv
  | cons hd tl ih =>
      intro hnd kv hkv
      rcases List.mem_cons.mp hkv with rfl | hkv'
      · show List.lookup kv.1 (kv :: tl) = some kv.2
        rw [List.lookup_cons]
        simp
      · have hne : ¬(kv.1 == hd.1) = true := by
          intro hbe
          have heq : kv.1 = hd.1 := eq_of_beq hbe
          have hmem : kv.1 ∈ tl.map Prod.fst := List.mem_map.mpr ⟨kv, hkv', rfl⟩
          rw [List.map_cons] at hnd
          exact (List.nodup_cons.mp hnd).1 (heq ▸ hmem)
        show List.lookup kv.1 (hd :: tl) = some kv.2
        rw [List.lookup_cons]
        simp only [hne, if_neg]
        exact ih (by rw [List.map_cons] at hnd; exact (List.nodup_cons.mp hnd).2) kv hkv'

/-- Lodash structural equality of a frames object with itself holds
whenever its keys are unique (as JS object keys always are). -/
theorem objEqual_refl (a : List (String × Rect)) (h : (a.map Prod.fst).Nodup) :
    objEqual a a = true := by
  unfold objEqual
  rw [Bool.and_eq_true]
  refine ⟨by simp, ?_⟩
  rw [List.all_eq_true]
  intro kv hkv
  rw [lookup_self_of_nodupKeys a h kv hkv]
  simp

/-- Lodash structural equality of a coordinate-metadata value with
itself holds whenever its frames object has unique keys. -/
theorem metaEqual_refl (m : CoordinateMeta) (h : (m.frames.map Prod.fst).Nodup) :
    metaEqual m m = true := by
  unfold metaEqual
  rw [Bool.and_eq_true, Bool.and_eq_true]
  exact ⟨⟨by simp, by simp⟩, objEqual_refl m.frames h⟩

/-- The frames object built by `processAssets` always has unique keys. -/
theorem buildCoordinateMeta_nodupKeys (sep : Char) (pr : PackResult) :
    ((buildCoordinateMeta sep pr).frames.map Prod.fst).Nodup := by
  unfold buildCoordinateMeta
  exact foldl_objInsert_nodupKeys (fun kv => basename sep kv.1) (fun kv => kv.2)
    pr.coordinates [] (by simp)

/-! Helper lemmas about the webpack asset-set operations. -/

/-- Replacing an asset does not change the set of identifiers. -/
theorem updateAsset_keys (assets : List (String × Bytes)) (k : String) (v : Bytes) :
    (updateAsset assets k v).map Prod.fst = assets.map Prod.fst := by
  unfold updateAsset
  rw [List.map_map]
  apply List.map_congr_left
  intro kv _
  by_cases h : (kv.1 == k) = true
  · simp only [Function.comp_apply, h, if_pos]
    exact (eq_of_beq h).symm
  · simp only [Function.comp_apply, h]
    simp

/-- Equality tests on strings are symmetric. -/
theorem strBeq_comm (a b : String) : (a == b) = (b == a) := by
  cases h : a == b
  · cases h2 : b == a
    · rfl
    · exact absurd (beq_iff_eq.mpr (eq_of_beq h2).symm) (by simp [h])
  · exact (beq_iff_eq.mpr (eq_of_beq h).symm).symm

/-- An equality test that fails propositionally evaluates to `false`. -/
theorem beq_false_of_ne {a b : String} (h : a ≠ b) : (a == b) = false := by
  cases hc : a == b
  · rfl
  · exact absurd (eq_of_beq hc) h

/-- Lookup at a cons whose head key matches. -/
theorem lookup_cons_beq_true {β : Type} {q k : String} (v : β) (tl : List (String × β))
    (h : (q == k) = true) : List.lookup q ((k, v) :: tl) = some v := by
  rw [List.lookup_cons, h]

/-- Lookup at a cons whose head key does not match. -/
theorem lookup_cons_beq_false {β : Type} {q k : String} (v : β) (tl : List (String × β))
    (h : (q == k) = false) : List.lookup q ((k, v) :: tl) = List.lookup q tl := by
  rw [List.lookup_cons, h]

/-- Unfolding `updateAsset` one entry at a time. -/
theorem updateAsset_cons (hd : String × Bytes) (tl : List (String × Bytes))
    (k : String) (v : Bytes) :
    updateAsset (hd :: tl) k v = (if hd.1 == k then (k, v) else hd) :: updateAsset tl k v := rfl

/-- Deleting an identifier drops a matching head entry. -/
theorem deleteAsset_cons_beq_true {hd : String × Bytes} {k : String}
    (tl : List (String × Bytes)) (h : (hd.1 == k) = true) :
    deleteAsset (hd :: tl) k = deleteAsset tl k := by
  simp only [deleteAsset, List.filter_cons, h, Bool.not_true]
  simp

/-- Deleting an identifier keeps a non-matching head entry. -/
theorem deleteAsset_cons_beq_false {hd : String × Bytes} {k : String}
    (tl : List (String × Bytes)) (h : (hd.1 == k) = false) :
    deleteAsset (hd :: tl) k = hd :: deleteAsset tl k := by
  simp only [deleteAsset, List.filter_cons, h, Bool.not_false]
  simp

/-- After replacing the asset at an existing identifier, looking that
identifier up yields the new artifact. -/
theorem updateAsset_lookup_self (assets : List (String × Bytes)) (k : String) (v : Bytes)
    (h : k ∈ assets.map Prod.fst) : (updateAsset assets k v).lookup k = some v := by
  induction assets with
  | nil => cases h
  | cons hd tl ih =>
      obtain ⟨k', v'⟩ := hd
      cases hbe : (k' == k) with
      | true =>
          rw [updateAsset_cons, if_pos hbe]
          exact lookup_cons_beq_true v (updateAsset tl k v) (beq_self_eq_true k)
      | false =>
          rw [updateAsset_cons, if_neg (by simp [hbe])]
          rw [lookup_cons_beq_false v' (updateAsset tl k v) ((strBeq_comm k k').trans hbe)]
          rcases List.mem_cons.mp h with heq | hmem
          · exact absurd (beq_iff_eq.mpr heq.symm) (by simp [hbe])
          · exact ih hmem

/-- Replacing the asset at one identifier leaves every other identifier's
lookup unchanged. -/
theorem updateAsset_lookup_ne (assets : List (String × Bytes)) (k q : String) (v : Bytes)
    (h : q ≠ k) : (updateAsset assets k v).lookup q = assets.lookup q := by
  induction assets with
  | nil => rfl
  | cons hd tl ih =>
      obtain ⟨k', v'⟩ := hd
      have hqk : (q == k) = false := beq_false_of_ne h
      cases hbe : (k' == k) with
      | true =>
          rw [updateAsset_cons, if_pos hbe]
          have hqk' : (q == k') = false :=
            beq_false_of_ne (fun hh => h (hh.trans (eq_of_beq hbe)))
          rw [lookup_cons_beq_false v (updateAsset tl k v) hqk,
            lookup_cons_beq_false v' tl hqk']
          exact ih
      | false =>
          rw [updateAsset_cons, if_neg (by simp [hbe])]
          cases hq : (q == k') with
          | true =>
              rw [lookup_cons_beq_true v' (updateAsset tl k v) hq,
                lookup_cons_beq_true v' tl hq]
          | false =>
              rw [lookup_cons_beq_false v' (updateAsset tl k v) hq,
                lookup_cons_beq_false v' tl hq]
              exact ih

/-- Deleting an identifier removes it from lookups and leaves every other
identifier's lookup unchanged. -/
theorem deleteAsset_lookup (assets : List (String × Bytes)) (k q : String) :
    (deleteAsset assets k).lookup q = if q = k then none else assets.lookup q := by
  induction assets with
  | nil => by_cases h : q = k <;> simp [deleteAsset, h]
  | cons hd tl ih =>
      obtain ⟨k', v'⟩ := hd
      cases hbe : (k' == k) with
      | true =>
          rw [deleteAsset_cons_beq_true tl hbe, ih]
          by_cases hq : q = k
          · simp [hq]
          · rw [if_neg hq, if_neg hq]
            have hqk' : (q == k') = false :=
              beq_false_of_ne (fun hh => hq (hh.trans (eq_of_beq hbe)))
            rw [lookup_cons_beq_false v' tl hqk']
      | false =>
          rw [deleteAsset_cons_beq_false tl hbe]
          cases hq : (q == k') with
          | true =>
              have hqk : q ≠ k := by
                intro hc
                rw [← eq_of_beq hq] at hbe
                rw [hc] at hbe
                simp at hbe
              rw [if_neg hqk, lookup_cons_beq_true v' (deleteAsset tl k) hq,
                lookup_cons_beq_true v' tl hq]
          | false =>
              rw [lookup_cons_beq_false v' (deleteAsset tl k) hq, ih]
              by_cases hqk : q = k
              · simp [hqk]
              · rw [if_neg hqk, if_neg hqk, lookup_cons_beq_false v' tl hq]

/-- Folding deletions over a list of identifiers removes exactly those
identifiers from lookups. -/
theorem foldl_deleteAsset_lookup :
    ∀ (ks : List String) (assets : List (String × Bytes)) (q : String),
      (ks.foldl deleteAsset assets).lookup q =
        if q ∈ ks then none else assets.lookup q := by
  intro ks
  induction ks with
  | nil => intro assets q; simp
  | cons k rest ih =>
      intro assets q
      rw [List.foldl_cons, ih]
      by_cases hq : q ∈ rest
      · simp [hq]
      · simp only [hq, if_neg]
        rw [deleteAsset_lookup]
        by_cases hqk : q = k
        · simp [hqk]
        · have : q ∉ k :: rest := by
            intro hc; rcases List.mem_cons.mp hc with h | h
            · exact hqk h
            · exact hq h
          simp [hqk, this]

/-- The qualifying identifier list is a sublist of the asset identifiers
it was filtered from (hence it preserves discovery order and uniqueness). -/
theorem filterQualifying_sublist (includes : Rules) :
    ∀ (paths l : List String), filterQualifying includes paths = .ok l → l.Sublist paths := by
  intro paths
  induction paths with
  | nil =>
      intro l h
      unfold filterQualifying at h
      cases h
      exact List.Sublist.refl []
  | cons p rest ih =>
      intro l h
      unfold filterQualifying at h
      cases hw : inWhiteList includes p with
      | error e => rw [hw] at h; cases h
      | ok ok =>
          rw [hw] at h
          cases hf : filterQualifying includes rest with
          | error e => rw [hf] at h; cases h
          | ok tail =>
              rw [hf] at h
              cases h
              by_cases hc : (ok && isPng p) = true
              · rw [if_pos hc]
                exact List.Sublist.cons₂ p (ih tail hf)
              · rw [if_neg hc]
                exact List.Sublist.cons p (ih tail hf)

/-- A successful `processAssets` run never changes the configured filter
rules or the output directory: only the stored metadata may change. -/
theorem processAssets_preserves_config (sep : Char)
    (pack : List (String × Bytes) → PackResult) (s : PluginState)
    (assets : List (String × Bytes)) (r : ProcessResult)
    (h : processAssets sep pack s assets = .ok r) :
    r.state.includes = s.includes ∧ r.state.outputDir = s.outputDir := by
  unfold processAssets at h
  cases hf : filterQualifying s.includes (assets.map Prod.fst) with
  | error e => rw [hf] at h; cases h
  | ok imagesPath =>
      rw [hf] at h
      cases imagesPath with
      | nil => cases h; exact ⟨rfl, rfl⟩
      | cons first rest => cases h; exact ⟨rfl, rfl⟩

/-! Further definitions used to state the claims, and concrete data for
witnesses. -/

/-- Spec-side transformation for the separator claims: the same path
spelled with the platform backslash separator instead of forward slashes. -/
def swapSep (p : String) : String :=
  String.mk (p.data.map (fun c => if c == '/' then '\\' else c))

/-- A concrete filter pattern: the model of the RegExp `/^a\/b/` (its
`test` function checks the prefix `a/b`). -/
def abPattern : Rules := .regexp (fun s => List.isPrefixOf "a/b".data s.data)

/-- A concrete array element modelling a RegExp whose `test` never
matches (e.g. `/$^/`). -/
def neverMatch : RuleItem := .regexp (fun _ => false)

/-- The placements of end-to-end scenario 1: two icons packed onto one
sheet. -/
def c6Coordinates : List (String × Rect) :=
  [("icons/a.png", ⟨0, 0, 10, 10⟩), ("icons/b.png", ⟨10, 0, 8, 8⟩)]

/-- Modelled from the claim's words: the serialized metadata shape claim
C6 asserts for scenario 1 — overall `width`/`height` plus a nested
`frames` object. -/
def c6ClaimedJson : String :=
  objJson [("width", "18"), ("height", "10"),
    ("frames", objJson [("icons_a.png", compactRectJson ⟨0, 0, 10, 10⟩),
      ("icons_b.png", compactRectJson ⟨10, 0, 8, 8⟩)])]

/-- A concrete packer used by the witnesses: it ignores its input and
reports three placements on a 3-by-1 sheet with image bytes `[9]`. -/
def wPack : List (String × Bytes) → PackResult := fun _ =>
  ⟨[("o/x.png", ⟨0, 0, 1, 1⟩), ("o/y.png", ⟨1, 0, 1, 1⟩), ("o/z.png", ⟨2, 0, 1, 1⟩)], 3, 1, [9]⟩

/-- A concrete asset set with three PNG artifacts. -/
def wAssets : List (String × Bytes) := [("x.png", [1]), ("y.png", [2]), ("z.png", [3])]

/-- A concrete initial plugin state: no filter rules, output directory
`o`, no previously stored metadata. -/
def wState : PluginState := ⟨.absent, "o", none⟩

/-- The coordinate metadata `processAssets` computes for `wPack` over
`wAssets`. -/
def wMeta : CoordinateMeta :=
  ⟨3, 1, [("x.png", ⟨0, 0, 1, 1⟩), ("y.png", ⟨1, 0, 1, 1⟩), ("z.png", ⟨2, 0, 1, 1⟩)]⟩

/-- The result of the first `processAssets` run on the concrete data:
the sheet replaces `x.png`, the other two slots are deleted, and the
metadata is written. -/
def wRun1 : ProcessResult :=
  ⟨⟨.absent, "o", some wMeta⟩, [("x.png", [9])], true, some wMeta, true⟩

/-- A trivial concrete packer for the standalone-mode runs. -/
def standalonePack : List String → PackResult := fun _ => ⟨[], 0, 0, []⟩

/-! Helper lemmas about the differ and the exclude-rule loop. -/

/-- The boolean returned by `isPrevMetadata` is the lodash comparison of
the stored metadata with the candidate. -/
theorem isPrevMetadata_fst (st : Option CoordinateMeta) (m : CoordinateMeta) :
    (isPrevMetadata st m).1 = isEqualOpt st m := by
  unfold isPrevMetadata
  by_cases h : isEqualOpt st m = true
  · simp [h]
  · have h' : isEqualOpt st m = false := by revert h; cases isEqualOpt st m <;> simp
    simp [h']

/-- After `isPrevMetadata` processes a candidate, the stored metadata
compares equal to that candidate (whenever the candidate's frame keys are
unique, as JS object keys always are). -/
theorem isEqualOpt_after_isPrevMetadata (st : Option CoordinateMeta) (m : CoordinateMeta)
    (h : (m.frames.map Prod.fst).Nodup) :
    isEqualOpt (isPrevMetadata st m).2 m = true := by
  unfold isPrevMetadata
  by_cases he : isEqualOpt st m = true
  · simp [he]
  · have he' : isEqualOpt st m = false := by revert he; cases isEqualOpt st m <;> simp
    simp only [he', Bool.false_eq_true, if_neg, not_false_eq_true]
    show metaEqual m m = true
    exact metaEqual_refl m h

/-- When every array element up from index `idx` is a RegExp, the
exclude loop succeeds and accepts the path exactly when no element
matches it. -/
theorem notExcludesLoop_all_regexp (pp : String) :
    ∀ (items : List RuleItem) (idx : Nat), (∀ it ∈ items, isRegExpItem it = true) →
      notExcludesLoop pp idx items = .ok (items.all (fun it => !itemTest it pp)) := by
  intro items
  induction items with
  | nil => intro idx _; rfl
  | cons it rest ih =>
      intro idx h
      have hit := h it (List.mem_cons_self it rest)
      cases it with
      | regexp r =>
          show (if r pp = true then Except.ok false else notExcludesLoop pp (idx + 1) rest) = _
          cases hr : r pp with
          | true => simp [List.all_cons, itemTest, hr]
          | false =>
              simp only [Bool.false_eq_true, if_neg, not_false_eq_true]
              rw [ih (idx + 1) (fun x hx => h x (List.mem_cons_of_mem _ hx))]
              simp [List.all_cons, itemTest, hr]
      | str s => cases hit
      | other t => cases hit

/-- When the first offending array element sits after a block of
non-matching RegExps, the exclude loop throws the configuration error
naming that element's index and `typeof`. -/
theorem notExcludesLoop_error (pp : String) (bad : RuleItem) (hbad : isRegExpItem bad = false) :
    ∀ (pre : List RuleItem) (idx : Nat) (rest : List RuleItem),
      (∀ it ∈ pre, isRegExpItem it = true ∧ itemTest it pp = false) →
      notExcludesLoop pp idx (pre ++ bad :: rest) =
        .error ("Item at " ++ toString (idx + pre.length) ++
          " must be \"RegExp\" but received \"" ++ typeofItem bad ++ "\"") := by
  intro pre
  induction pre with
  | nil =>
      intro idx rest _
      cases bad with
      | regexp r => cases hbad
      | str s => simp [notExcludesLoop]
      | other t => simp [notExcludesLoop]
  | cons it pre' ih =>
      intro idx rest h
      obtain ⟨hreg, htest⟩ := h it (List.mem_cons_self it pre')
      cases it with
      | regexp r =>
          have hr : r pp = false := by simpa [itemTest] using htest
          rw [List.cons_append]
          show (if r pp = true then Except.ok false
            else notExcludesLoop pp (idx + 1) (pre' ++ bad :: rest)) = _
          rw [if_neg (by simp [hr])]
          rw [ih (idx + 1) rest (fun x hx => h x (List.mem_cons_of_mem _ hx))]
          have harith : idx + 1 + pre'.length = idx + (RuleItem.regexp r :: pre').length := by
            simp [List.length_cons]; omega
          rw [harith]
      | str s => cases hreg
      | other t => cases hreg

/-- On a platform whose separator is the backslash, `#convert2Posix`
yields the same canonical path for a forward-slash spelling and for its
backslash respelling. -/
theorem convert2Posix_backslash_swapSep (p : String) :
    convert2Posix '\\' (swapSep p) = convert2Posix '\\' p := by
  by_cases hp : p = ""
  · subst hp; rfl
  · have hdne : p.data ≠ [] := fun hnil => hp (String.ext (by rw [hnil]))
    have hsw : swapSep p ≠ "" := by
      intro hc
      have hdata : (swapSep p).data = ("" : String).data := by rw [hc]
      exact hdne (List.map_eq_nil_iff.mp hdata)
    unfold convert2Posix
    rw [if_neg hsw, if_neg hp]
    apply String.ext
    show ((swapSep p).data.map _) = p.data.map _
    rw [show (swapSep p).data = p.data.map (fun c => if c == '/' then '\\' else c) from rfl,
      List.map_map]
    apply List.map_congr_left
    intro c _
    simp only [Function.comp_apply]
    by_cases hc : c = '/'
    · subst hc; decide
    · by_cases hb : c = '\\'
      · subst hb; decide
      · have h1 : (c == '/') = false := by
          cases hx : c == '/'
          · rfl
          · exact absurd (eq_of_beq hx) hc
        have h2 : (c == '\\') = false := by
          cases hx : c == '\\'
          · rfl
          · exact absurd (eq_of_beq hx) hb
        simp [h1, h2]

/-! The claims. -/

/-- C1: the claim states that on an empty qualifying candidate list no
packer invocation and no metadata write occur and the completion callback
fires immediately.  The in-pipeline handler (`index.js`) behaves exactly
so, but the production branch of `plugin.js` (`beforeRun`) only invokes
`#generateSpriteSheet` — which is the sole caller of the webpack
callback — when the list is non-empty, so on an empty list the callback
is never invoked and the build hangs: the code contradicts the clear
intent.  This theorem records both behaviors at the failing input. -/
theorem claim_c1_empty_build :
    beforeRunPack '/' .absent standalonePack [] "cwd" = .ok ⟨false, none, none, false⟩ ∧
    processAssets '/' wPack wState [("a.txt", [1])] =
      .ok ⟨wState, [("a.txt", [1])], false, none, true⟩ :=
  ⟨rfl, rfl⟩

/-- C3 counterexample: the claim asserts that whenever a rule list holds
a non-pattern element, filter evaluation fails with a configuration
error naming its index; but the in-pipeline filter (`inWhiteList` in
`index.js`) never validates list elements — with the list `[42]` (a
number at index 0) it succeeds and accepts the path. -/
theorem claim_c3_counterexample :
    inWhiteList (.arr [.other "number"]) "a.png" = .ok true := rfl

/-- C3 amended: for the standalone filter (`#notExcludes` in
`plugin.js`) the claim holds as stated — an all-RegExp list accepts a
path iff no pattern matches its posix form, and a non-RegExp element
reached before any match raises an error naming its index and `typeof`;
the in-pipeline filter (`inWhiteList` in `index.js`) instead treats a
list as exact string membership with no element validation. -/
theorem claim_c3_amended_list_filters :
    (∀ (sep : Char) (p : String) (items : List RuleItem),
      (∀ it ∈ items, isRegExpItem it = true) →
      notExcludes sep (.arr items) p =
        .ok (items.all (fun it => !itemTest it (convert2Posix sep p)))) ∧
    (∀ (sep : Char) (p : String) (pre : List RuleItem) (bad : RuleItem) (rest : List RuleItem),
      (∀ it ∈ pre, isRegExpItem it = true ∧ itemTest it (convert2Posix sep p) = false) →
      isRegExpItem bad = false →
      notExcludes sep (.arr (pre ++ bad :: rest)) p =
        .error ("Item at " ++ toString pre.length ++ " must be \"RegExp\" but received \"" ++
          typeofItem bad ++ "\"")) ∧
    (∀ (items : List RuleItem) (p : String),
      inWhiteList (.arr items) p = .ok (!(arrContainsStr items p))) := by
  refine ⟨?_, ?_, ?_⟩
  · intro sep p items h
    show notExcludesLoop (convert2Posix sep p) 0 items = _
    exact notExcludesLoop_all_regexp _ items 0 h
  · intro sep p pre bad rest h hbad
    show notExcludesLoop (convert2Posix sep p) 0 (pre ++ bad :: rest) = _
    rw [notExcludesLoop_error _ bad hbad pre 0 rest h, Nat.zero_add]
  · intro items p; rfl

/-- C3 witness: concrete instances of the three amended statements — an
all-RegExp list that matches nothing accepts the path; a string at index
1 after a non-matching RegExp raises the error naming index 1 and type
`string`; the in-pipeline list filter rejects exactly its members. -/
theorem claim_c3_witness :
    notExcludes '/' (.arr [neverMatch]) "a.png" = .ok true ∧
    notExcludes '/' (.arr [neverMatch, .str "x"]) "a.png" =
      .error "Item at 1 must be \"RegExp\" but received \"string\"" ∧
    inWhiteList (.arr [.str "a.png"]) "a.png" = .ok false := by
  refine ⟨?_, ?_, ?_⟩
  · exact (claim_c3_amended_list_filters.1 '/' "a.png" [neverMatch]
      (by intro it hit; rcases List.mem_singleton.mp hit with rfl; rfl)).trans rfl
  · exact (claim_c3_amended_list_filters.2.1 '/' "a.png" [neverMatch] (.str "x") []
      (by intro it hit; rcases List.mem_singleton.mp hit with rfl; exact ⟨rfl, rfl⟩) rfl).trans rfl
  · exact (claim_c3_amended_list_filters.2.2 [.str "a.png"] "a.png").trans rfl

/-- C5 counterexample: the claim asserts that for every rule
configuration the filter yields identical results on the forward-slash
and backslash spellings of a path, but the in-pipeline filter
(`inWhiteList` in `index.js`) performs no separator normalization: under
the pattern `/^a\/b/` the spelling `a/b/c.png` is excluded while its
backslash respelling is accepted. -/
theorem claim_c5_counterexample :
    inWhiteList abPattern (swapSep "a/b/c.png") ≠ inWhiteList abPattern "a/b/c.png" := by
  intro h
  have h1 : inWhiteList abPattern (swapSep "a/b/c.png") = Except.ok true := rfl
  have h2 : inWhiteList abPattern "a/b/c.png" = Except.ok false := rfl
  rw [h1, h2] at h
  simp at h

/-- C5 amended: the separator-normalization property holds for the
standalone filter (`#notExcludes` in `plugin.js`) on a platform whose
separator is the backslash: the forward-slash spelling and the backslash
respelling of any path yield identical results under every rule
configuration, because `#convert2Posix` canonicalizes the platform
separator before pattern evaluation.  The in-pipeline filter does not
normalize (see the counterexample). -/
theorem claim_c5_amended (excludes : Rules) (p : String) :
    notExcludes '\\' excludes (swapSep p) = notExcludes '\\' excludes p := by
  cases excludes with
  | absent => rfl
  | other t => rfl
  | regexp test =>
      show Except.ok _ = Except.ok _
      rw [convert2Posix_backslash_swapSep]
  | arr items =>
      show notExcludesLoop _ 0 items = notExcludesLoop _ 0 items
      rw [convert2Posix_backslash_swapSep]

/-- C6 counterexample: for the scenario-1 placements, the manifest
serialized by `#generateSpriteSheet` (`plugin.js`) is not the claimed
shape carrying overall `width`/`height` and a nested `frames` object —
the code writes the frame map alone at top level. -/
theorem claim_c6_counterexample :
    manifestJson '/' c6Coordinates ≠ c6ClaimedJson := by decide

/-- C6 amended: under the parent-qualified strategy the metadata maps,
for every placement, `parentDir_basename` to that placement's rectangle
in compact `x y w h` form at the top level of the manifest; the
packer-reported overall width and height are not included (they exist
only in the in-pipeline mode's basename-keyed metadata). -/
theorem claim_c6_amended :
    generateMetadata '/' c6Coordinates =
      [("icons_a.png", ⟨0, 0, 10, 10⟩), ("icons_b.png", ⟨10, 0, 8, 8⟩)] ∧
    manifestJson '/' c6Coordinates =
      objJson [("icons_a.png", compactRectJson ⟨0, 0, 10, 10⟩),
        ("icons_b.png", compactRectJson ⟨10, 0, 8, 8⟩)] :=
  ⟨rfl, rfl⟩

/-- C7: the differ is idempotent — a second `isPrevMetadata` call with
the same metadata and the state left by the first call reports
"unchanged", whatever the first call reported, because a detected change
replaces the stored metadata by a copy of the candidate. -/
theorem claim_c7_differ_idempotent (M : CoordinateMeta) (st : Option CoordinateMeta)
    (h : (M.frames.map Prod.fst).Nodup) :
    (isPrevMetadata (isPrevMetadata st M).2 M).1 = true := by
  rw [isPrevMetadata_fst]
  exact isEqualOpt_after_isPrevMetadata st M h

/-- C7 witness: the idempotence at a concrete metadata value and the
initial (empty) differ state, where the first call reports "changed". -/
theorem claim_c7_witness :
    (wMeta.frames.map Prod.fst).Nodup ∧
    (isPrevMetadata (isPrevMetadata none wMeta).2 wMeta).1 = true :=
  ⟨by decide, claim_c7_differ_idempotent wMeta none (by decide)⟩

/-- C8 counterexample: the claim asserts the completion signal fires
only after both writes have finished (success or failure), but
`Promise.all(...).finally(callback)` settles at the first rejection: with
the manifest write rejecting at time 1 and the sprite write fulfilling at
time 5, the callback fires at time 1, before both writes finished. -/
theorem claim_c8_counterexample :
    promiseAll2SettleTime ⟨1, false⟩ ⟨5, true⟩ < max 1 5 := by decide

/-- C8 amended: when a completion signal is requested and both writes
succeed, the signal fires only once both have finished; the signal never
fires later than the last settlement, and it always coincides with the
settlement of one of the two writes (success and failure are observed
through the same completion path) — but a rejected write makes the
signal fire at that rejection, possibly before the other write finishes.
When no completion signal is requested, both writes are still fired but
nothing waits: no signal fires and the outcome is independent of when or
how the writes settle. -/
theorem claim_c8_amended (w1 w2 : WriteOutcome) :
    ((w1.ok = true → w2.ok = true →
      w1.time ≤ promiseAll2SettleTime w1 w2 ∧ w2.time ≤ promiseAll2SettleTime w1 w2) ∧
    promiseAll2SettleTime w1 w2 ≤ max w1.time w2.time ∧
    (promiseAll2SettleTime w1 w2 = w1.time ∨ promiseAll2SettleTime w1 w2 = w2.time)) ∧
    (∀ (sep : Char) (pr : PackResult) (w1' w2' : WriteOutcome),
      (generateSpriteSheetWrites sep pr false w1 w2).signalTime = none ∧
      (generateSpriteSheetWrites sep pr false w1 w2).manifestContent =
        manifestJson sep pr.coordinates ∧
      (generateSpriteSheetWrites sep pr false w1 w2).spriteContent = pr.image ∧
      generateSpriteSheetWrites sep pr false w1 w2 =
        generateSpriteSheetWrites sep pr false w1' w2' ∧
      (generateSpriteSheetWrites sep pr true w1 w2).signalTime =
        some (promiseAll2SettleTime w1 w2)) := by
  constructor
  · obtain ⟨t1, o1⟩ := w1
    obtain ⟨t2, o2⟩ := w2
    unfold promiseAll2SettleTime
    cases o1 <;> cases o2 <;> simp <;> omega
  · intro sep pr w1' w2'
    exact ⟨rfl, rfl, rfl, rfl, rfl⟩

/-- C8 witness: with both writes succeeding at times 2 and 3, the
completion signal waits for both; and with no callback requested, the
same writes are fired with no signal at all. -/
theorem claim_c8_witness :
    (2 ≤ promiseAll2SettleTime ⟨2, true⟩ ⟨3, true⟩ ∧
      3 ≤ promiseAll2SettleTime ⟨2, true⟩ ⟨3, true⟩) ∧
    (generateSpriteSheetWrites '/' ⟨[], 4, 4, [7]⟩ false ⟨2, true⟩ ⟨3, true⟩).signalTime =
      none :=
  ⟨(claim_c8_amended ⟨2, true⟩ ⟨3, true⟩).1.1 rfl rfl,
    ((claim_c8_amended ⟨2, true⟩ ⟨3, true⟩).2 '/' ⟨[], 4, 4, [7]⟩ ⟨9, false⟩ ⟨1, true⟩).1⟩

/-- C9: the filter is a pure predicate of the path and the configured
rules — a full pack attempt (the only mutation of plugin state, namely
of the stored metadata) leaves every subsequent filter evaluation
unchanged. -/
theorem claim_c9_filter_pure (sep : Char) (pack : List (String × Bytes) → PackResult)
    (s : PluginState) (assets : List (String × Bytes)) (r : ProcessResult)
    (h : processAssets sep pack s assets = .ok r) (p : String) :
    inWhiteList r.state.includes p = inWhiteList s.includes p := by
  rw [(processAssets_preserves_config sep pack s assets r h).1]

/-- C9 witness: after the concrete pack attempt, evaluating the filter
on a fresh path gives the same verdict as before the attempt. -/
theorem claim_c9_witness :
    inWhiteList wRun1.state.includes "q.png" = inWhiteList wState.includes "q.png" :=
  claim_c9_filter_pure '/' wPack wState wAssets wRun1 rfl "q.png"

/-- C10: a watch event never triggers a repack when its path is the
sprite image output path or the manifest output path, or when the event
kind is "renamed" — the pipeline's own output writes cannot re-trigger a
pack attempt. -/
theorem claim_c10_no_self_retrigger (sep : Char) (excludes : Rules)
    (sp mp ev fp : String) (h : fp = sp ∨ fp = mp ∨ ev = "renamed") :
    shouldRepack sep excludes sp mp ev fp ≠ .ok true := by
  unfold shouldRepack
  by_cases hev : (ev == "renamed") = true
  · rw [if_pos hev]
    intro hc
    cases hc
  · rw [if_neg hev]
    cases hne : notExcludes sep excludes fp with
    | error e =>
        intro hc
        cases hc
    | ok ne =>
        show Except.ok (ne && !pathEqual fp sp && !pathEqual fp mp && isPng fp) ≠ Except.ok true
        intro hc
        injection hc with hb
        rcases h with rfl | rfl | rfl
        · simp [pathEqual] at hb
        · simp [pathEqual] at hb
        · exact hev (beq_self_eq_true "renamed")

/-- C10 witness: a change event on the sprite output path itself does
not repack. -/
theorem claim_c10_witness :
    shouldRepack '/' .absent "out/sprite.png" "out/manifest.json" "changed" "out/sprite.png" ≠
      Except.ok true :=
  claim_c10_no_self_retrigger '/' .absent "out/sprite.png" "out/manifest.json" "changed"
    "out/sprite.png" (Or.inl rfl)

/-- C4: in in-pipeline mode, for every non-empty qualifying identifier
list in discovery order, reconciliation leaves the sheet image at the
first identifier's slot and deletes every other qualifying identifier's
slot, so exactly one artifact slot remains for the packed set. -/
theorem claim_c4_reconciliation (sep : Char) (pack : List (String × Bytes) → PackResult)
    (s : PluginState) (assets : List (String × Bytes)) (first : String) (rest : List String)
    (r : ProcessResult)
    (hnd : (assets.map Prod.fst).Nodup)
    (hf : filterQualifying s.includes (assets.map Prod.fst) = .ok (first :: rest))
    (h : processAssets sep pack s assets = .ok r) :
    r.assets.lookup first = some (pack (imagesDataOf sep s assets (first :: rest))).image ∧
    ∀ q ∈ rest, r.assets.lookup q = none := by
  unfold processAssets at h
  rw [hf] at h
  injection h with h'
  have hassets : r.assets = rest.foldl deleteAsset
      (updateAsset assets first (pack (imagesDataOf sep s assets (first :: rest))).image) := by
    rw [← h']
  have hsub := filterQualifying_sublist s.includes (assets.map Prod.fst) (first :: rest) hf
  have hnd' : (first :: rest).Nodup := hsub.nodup hnd
  have hfm : first ∈ assets.map Prod.fst :=
    List.Sublist.mem (List.mem_cons_self first rest) hsub
  have hfr : first ∉ rest := (List.nodup_cons.mp hnd').1
  constructor
  · rw [hassets, foldl_deleteAsset_lookup, if_neg hfr,
      updateAsset_lookup_self assets first _ hfm]
  · intro q hq
    rw [hassets, foldl_deleteAsset_lookup, if_pos hq]

/-- C4 witness: with qualifying identifiers `x.png`, `y.png`, `z.png`
in discovery order, the reconciled asset set holds the sheet at `x.png`
and has no slots for `y.png` and `z.png`. -/
theorem claim_c4_witness :
    wRun1.assets.lookup "x.png" =
      some (wPack (imagesDataOf '/' wState wAssets ["x.png", "y.png", "z.png"])).image ∧
    wRun1.assets.lookup "y.png" = none ∧ wRun1.assets.lookup "z.png" = none := by
  obtain ⟨h1, h2⟩ := claim_c4_reconciliation '/' wPack wState wAssets "x.png"
    ["y.png", "z.png"] wRun1 (by decide) rfl rfl
  exact ⟨h1, h2 "y.png" (by simp), h2 "z.png" (by simp)⟩

/-- C2: the coordinate file is written if and only if the differ
reports the freshly built metadata structurally different from the
stored metadata — anything written was reported different, and after a
successful pack a reported difference forces the computed metadata to be
written — and a second pack attempt over the same assets with the same
packer (hence structurally equal metadata) performs no write. -/
theorem claim_c2_suppressed_rewrite (sep : Char) (pack : List (String × Bytes) → PackResult)
    (s : PluginState) (assets : List (String × Bytes)) (r₁ : ProcessResult)
    (h₁ : processAssets sep pack s assets = .ok r₁) :
    (∀ m, r₁.written = some m → isEqualOpt s.coordinateMeta m = false) ∧
    (∀ first rest, filterQualifying s.includes (assets.map Prod.fst) = .ok (first :: rest) →
      isEqualOpt s.coordinateMeta
        (buildCoordinateMeta sep (pack (imagesDataOf sep s assets (first :: rest)))) = false →
      r₁.written =
        some (buildCoordinateMeta sep (pack (imagesDataOf sep s assets (first :: rest))))) ∧
    ∃ r₂, processAssets sep pack r₁.state assets = .ok r₂ ∧ r₂.written = none := by
  unfold processAssets at h₁
  cases hf : filterQualifying s.includes (assets.map Prod.fst) with
  | error e => rw [hf] at h₁; cases h₁
  | ok imagesPath =>
      rw [hf] at h₁
      cases imagesPath with
      | nil =>
          injection h₁ with h₁'
          subst h₁'
          refine ⟨?_, ?_, ?_⟩
          · intro m hm
            cases hm
          · intro first' rest' hf' _
            simp at hf'
          · refine ⟨⟨s, assets, false, none, true⟩, ?_, rfl⟩
            show processAssets sep pack s assets = _
            unfold processAssets
            rw [hf]
      | cons first rest =>
          injection h₁ with h₁'
          subst h₁'
          refine ⟨?_, ?_, ?_⟩
          · intro m hm
            have hw : (if (isPrevMetadata s.coordinateMeta
                (buildCoordinateMeta sep (pack (imagesDataOf sep s assets (first :: rest))))).1
                then none
                else some (buildCoordinateMeta sep
                  (pack (imagesDataOf sep s assets (first :: rest))))) = some m := hm
            by_cases he : (isPrevMetadata s.coordinateMeta
                (buildCoordinateMeta sep (pack (imagesDataOf sep s assets (first :: rest))))).1 = true
            · rw [if_pos he] at hw
              cases hw
            · rw [if_neg he] at hw
              injection hw with hmm
              rw [← hmm]
              rw [isPrevMetadata_fst] at he
              revert he
              cases isEqualOpt s.coordinateMeta
                (buildCoordinateMeta sep (pack (imagesDataOf sep s assets (first :: rest)))) <;>
                simp
          · intro first' rest' hf' hdiff
            injection hf' with he
            injection he with he1 he2
            subst he1
            subst he2
            show (if (isPrevMetadata s.coordinateMeta
                (buildCoordinateMeta sep (pack (imagesDataOf sep s assets (first :: rest))))).1
              then none
              else some (buildCoordinateMeta sep
                (pack (imagesDataOf sep s assets (first :: rest))))) = some _
            rw [isPrevMetadata_fst, hdiff]
            simp
          · refine ⟨⟨{ s with coordinateMeta := (isPrevMetadata
                ({ s with coordinateMeta := (isPrevMetadata s.coordinateMeta
                  (buildCoordinateMeta sep
                    (pack (imagesDataOf sep s assets (first :: rest))))).2 } :
                  PluginState).coordinateMeta
                (buildCoordinateMeta sep (pack (imagesDataOf sep s assets (first :: rest))))).2 },
              rest.foldl deleteAsset (updateAsset assets first
                (pack (imagesDataOf sep s assets (first :: rest))).image), true,
              if (isPrevMetadata
                ({ s with coordinateMeta := (isPrevMetadata s.coordinateMeta
                  (buildCoordinateMeta sep
                    (pack (imagesDataOf sep s assets (first :: rest))))).2 } :
                  PluginState).coordinateMeta
                (buildCoordinateMeta sep (pack (imagesDataOf sep s assets (first :: rest))))).1
                then none
                else some (buildCoordinateMeta sep
                  (pack (imagesDataOf sep s assets (first :: rest)))), true⟩, ?_, ?_⟩
            · show processAssets sep pack _ assets = _
              unfold processAssets
              have hf₂ : filterQualifying
                  ({ s with coordinateMeta := (isPrevMetadata s.coordinateMeta
                    (buildCoordinateMeta sep
                      (pack (imagesDataOf sep s assets (first :: rest))))).2 } :
                    PluginState).includes (assets.map Prod.fst) = .ok (first :: rest) := hf
              rw [hf₂]
              rfl
            · show (if (isPrevMetadata (isPrevMetadata s.coordinateMeta
                  (buildCoordinateMeta sep
                    (pack (imagesDataOf sep s assets (first :: rest))))).2
                  (buildCoordinateMeta sep (pack (imagesDataOf sep s assets (first :: rest))))).1
                  then none
                  else some (buildCoordinateMeta sep
                    (pack (imagesDataOf sep s assets (first :: rest))))) = none
              rw [isPrevMetadata_fst,
                isEqualOpt_after_isPrevMetadata s.coordinateMeta
                  (buildCoordinateMeta sep (pack (imagesDataOf sep s assets (first :: rest))))
                  (buildCoordinateMeta_nodupKeys sep
                    (pack (imagesDataOf sep s assets (first :: rest))))]
              simp

/-- C2 witness: on the concrete data the first pack attempt does write
its metadata (the differ reports a change against the empty initial
state), anything written was reported changed, and rerunning
`processAssets` from the resulting state over the same assets performs
no write. -/
theorem claim_c2_witness :
    (∀ m, wRun1.written = some m → isEqualOpt wState.coordinateMeta m = false) ∧
    wRun1.written = some wMeta ∧
    ∃ r₂, processAssets '/' wPack wRun1.state wAssets = .ok r₂ ∧ r₂.written = none := by
  obtain ⟨h1, h2, h3⟩ := claim_c2_suppressed_rewrite '/' wPack wState wAssets wRun1 rfl
  exact ⟨h1, h2 "x.png" ["y.png", "z.png"] rfl rfl, h3⟩

end SpritePNG
